import Mathlib

/-!
Verification of the basket-assembly engine: a shallow embedding, over ℚ, of the
repository's budget repairer (`src/agent/budget/agent.py`), compatibility scorer
(`src/agent/compatibility/scorer.py`), basket assembler
(`src/agent/compatibility/agent.py`), masked sequential construction environment
(`src/agent/compatibility_env.py`), scenario matchers
(`src/agent/compatibility/scenario_matcher.py`, `src/agents/compatibility/scenario_matcher.py`)
and the slot filler's unit arithmetic (`src/agent/compatibility/product_searcher.py`).

Python floats are modelled as rationals; numeric routines supplied by external
libraries (the cosine similarity of two embedding vectors) are abstract function
parameters.  Python's builtin `round` (banker's rounding, half to even) is modelled
by `pyRound` below.
-/

/-! ## Shared helpers -/

/-- Python's builtin `round(q)` on a rational: round half to even. -/
def pyRound (q : ℚ) : ℤ :=
  if q - ⌊q⌋ < 1/2 then ⌊q⌋
  else if (1:ℚ)/2 < q - ⌊q⌋ then ⌊q⌋ + 1
  else if ⌊q⌋ % 2 = 0 then ⌊q⌋ else ⌊q⌋ + 1

/-- Python's `round(q, n)` for `n` decimal digits. -/
def pyRoundTo (n : ℕ) (q : ℚ) : ℚ :=
  (pyRound (q * 10 ^ n) : ℚ) / 10 ^ n

/-- `max(0.0, min(1.0, x))`, the clamp used by the scorer. -/
def clamp01 (x : ℚ) : ℚ := max 0 (min 1 x)

/-- Python's substring test `needle in hay` on strings. -/
def strContains (hay needle : String) : Bool :=
  hay.data.tails.any (fun t => needle.data.isPrefixOf t)

/-- Python's `str.lower()` (adequate for the keyword data used by the code). -/
def lowerStr (s : String) : String := ⟨s.data.map Char.toLower⟩

/-- Insert `a` into a list that is sorted by `key` in descending order, after all
entries whose key is `≥ key a`; building a sort from it reproduces the stable
descending order of Python's `sorted(..., key=key, reverse=True)`. -/
def insertDescBy {α : Type} (key : α → ℚ) (a : α) : List α → List α
  | [] => [a]
  | b :: rest => if key b < key a then a :: b :: rest else b :: insertDescBy key a rest

/-- Stable descending sort by `key`: Python's `sorted(l, key=key, reverse=True)`. -/
def sortDescBy {α : Type} (key : α → ℚ) (l : List α) : List α :=
  l.foldl (fun acc a => insertDescBy key a acc) []

/-! ## Budget Repairer (`BudgetAgent` in `src/agent/budget/agent.py`)

A basket item is a Python dict; the fields below are the keys `optimize` and
`_find_cheaper_alternative` actually read. `embedding = none` models a missing
embedding (`item.get('embedding')` being `None`).  A `DBRow` is one row of the
`products` table as selected by the SQL query in `_find_cheaper_alternative`;
`embedding = none` models a NULL blob.  The cosine similarity computed by
`sklearn.metrics.pairwise.cosine_similarity` is an abstract parameter `sim`;
the finiteness checks (`np.isfinite`) always pass in the rational model. -/

structure BItem where
  id : ℤ
  name : String
  price : ℚ
  meal_components : List String
  embedding : Option (List ℚ)
deriving DecidableEq

instance : Inhabited BItem := ⟨⟨0, "", 0, [], none⟩⟩

structure DBRow where
  id : ℤ
  product_name : String
  product_category : String
  brand : String
  price_per_unit : ℚ
  unit : String
  package_size : ℚ
  tags : String
  meal_components : String
  embedding : Option (List ℚ)
deriving DecidableEq

/-- The candidate dict built inside `_find_cheaper_alternative` (row fields plus
the deserialized embedding and its similarity to the original item). -/
structure Candidate where
  id : ℤ
  name : String
  product_category : String
  brand : String
  price : ℚ
  unit : String
  package_size : ℚ
  tags : String
  meal_components : String
  embedding : List ℚ
  similarity : ℚ
deriving DecidableEq

namespace BudgetAgent

/-- The SQL `WHERE` clause: embedding not NULL, `price_per_unit < max_price`, and
when the item has meal components, `meal_components LIKE '%main_component%'`. -/
def rowMatches (item : BItem) (max_price : ℚ) (r : DBRow) : Bool :=
  r.embedding.isSome && decide (r.price_per_unit < max_price) &&
    (match item.meal_components with
     | [] => true
     | m :: _ => strContains r.meal_components m)

/-- Build a candidate from a fetched row: skip rows whose embedding blob is empty
(the deserialization length check); the `np.isfinite` checks always hold over ℚ. -/
def rowToCandidate (sim : List ℚ → List ℚ → ℚ) (emb : List ℚ) (r : DBRow) :
    Option Candidate :=
  match r.embedding with
  | none => none
  | some e =>
      if e = [] then none
      else some ⟨r.id, r.product_name, r.product_category, r.brand, r.price_per_unit,
                 r.unit, r.package_size, r.tags, r.meal_components, e, sim emb e⟩

/-- `BudgetAgent._find_cheaper_alternative`: fetch qualifying rows, score each by
similarity to the original item's embedding, sort by similarity descending and
return the first candidate whose id differs from the item's. -/
def find_cheaper_alternative (pool : List DBRow) (sim : List ℚ → List ℚ → ℚ)
    (item : BItem) (min_discount : ℚ) : Option Candidate :=
  match item.embedding with
  | none => none
  | some emb =>
      let max_price := item.price * (1 - min_discount)
      let rows := pool.filter (rowMatches item max_price)
      let candidates := rows.filterMap (rowToCandidate sim emb)
      (sortDescBy (fun c => c.similarity) candidates).find? (fun c => decide (c.id ≠ item.id))

/-- The candidate dict replaces the basket item in `optimized_basket[idx] = alternative`
(the dict keeps the raw `meal_components` string; it is split here into the list
form, a difference `optimize` never observes since each index is processed once). -/
def candidateToItem (c : Candidate) : BItem :=
  ⟨c.id, c.name, c.price, c.meal_components.splitOn "|", some c.embedding⟩

/-- One replacement record `{'from': ..., 'to': ..., 'saved': ...}`. -/
structure Replacement where
  from_name : String
  to_name : String
  saved : ℚ
deriving DecidableEq

structure OptimizeResult where
  basket : List BItem
  total_price : ℚ
  saved : ℚ
  replacements : List Replacement
  within_budget : Bool
  message : String
deriving DecidableEq

/-- `sum(item.get('price', 0) for item in basket)`. -/
def sumPrices (bk : List BItem) : ℚ := (bk.map (fun it => it.price)).sum

/-- The replacement loop of `optimize`: walk the indices sorted by price
descending; stop as soon as the running total is within budget; otherwise try to
replace the item at the index and record the saving. -/
def optimizeLoop (pool : List DBRow) (sim : List ℚ → List ℚ → ℚ) (min_discount b : ℚ) :
    List ℕ → List BItem → List Replacement → ℚ → List BItem × List Replacement × ℚ
  | [], bk, reps, saved => (bk, reps, saved)
  | idx :: rest, bk, reps, saved =>
      if sumPrices bk ≤ b then (bk, reps, saved)
      else
        match find_cheaper_alternative pool sim (bk.getD idx default) min_discount with
        | none => optimizeLoop pool sim min_discount b rest bk reps saved
        | some alt =>
            optimizeLoop pool sim min_discount b rest (bk.set idx (candidateToItem alt))
              (reps ++ [⟨(bk.getD idx default).name, alt.name,
                         (bk.getD idx default).price - alt.price⟩])
              (saved + ((bk.getD idx default).price - alt.price))

/-- `sorted(range(len(basket)), key=price, reverse=True)`. -/
def sorted_indices (basket : List BItem) : List ℕ :=
  sortDescBy (fun i => (basket.getD i default).price) (List.range basket.length)

/-- `BudgetAgent.optimize` (numeric interpolation in the message strings is
dropped; nothing else depends on them). -/
def optimize (pool : List DBRow) (sim : List ℚ → List ℚ → ℚ) (basket : List BItem)
    (budget_rub : Option ℚ) (min_discount : ℚ) : OptimizeResult :=
  if basket.isEmpty then ⟨[], 0, 0, [], true, "Пустая корзина"⟩
  else
    match budget_rub with
    | none => ⟨basket, sumPrices basket, 0, [], true, "В пределах бюджета"⟩
    | some b =>
        if sumPrices basket ≤ b then
          ⟨basket, sumPrices basket, 0, [], true, "В пределах бюджета"⟩
        else
          ⟨(optimizeLoop pool sim min_discount b (sorted_indices basket) basket [] 0).1,
           sumPrices (optimizeLoop pool sim min_discount b (sorted_indices basket) basket [] 0).1,
           (optimizeLoop pool sim min_discount b (sorted_indices basket) basket [] 0).2.2,
           (optimizeLoop pool sim min_discount b (sorted_indices basket) basket [] 0).2.1,
           decide (sumPrices
             (optimizeLoop pool sim min_discount b (sorted_indices basket) basket [] 0).1 ≤ b),
           "Заменено товаров, сэкономлено"⟩

end BudgetAgent

/-! ## Compatibility Scorer (`CompatibilityScorer` in `src/agent/compatibility/scorer.py`)

A scored item is a Python dict with the keys `compute_score` reads.  The rule
lists come from `meal_components_extended.json` (data, not code), so they are
parameters; a pair entry whose length is not 2 is skipped, exactly as in
`_check_pair_compatibility`.  The cosine similarity of two (normalised)
embeddings is the abstract parameter `sim`. -/

structure ScItem where
  product_name : String
  meal_components : List String
  embedding : Option (List ℚ)
deriving DecidableEq

structure RuleSet where
  positive_pairs : List (List String)
  negative_pairs : List (List String)
deriving DecidableEq

structure Weights where
  embedding_similarity : ℚ
  rule_based : ℚ
  component_balance : ℚ
deriving DecidableEq

/-- The report dict returned by `compute_score` (the empty-basket branch labels
the rule-based sub-term `rule_based_modifier`; both keys are modelled by the
single `rule_based_score` field).  The `weights_used` echo is omitted. -/
structure ScoreReport where
  total_score : ℚ
  embedding_similarity : ℚ
  rule_based_score : ℚ
  component_balance : ℚ
  num_products : ℕ
  num_positive_pairs : ℕ
  num_negative_pairs : ℕ
deriving DecidableEq

/-- All unordered pairs `(i, j)` with `i < j`, in the double-loop order of
`compute_score`. -/
def pairsOf {α : Type} : List α → List (α × α)
  | [] => []
  | x :: xs => xs.map (fun y => (x, y)) ++ pairsOf xs

namespace CompatibilityScorer

/-- One keyword pair applied to two (already lowercased) names, in either order;
entries that are not two-element lists never apply (`len(pair) != 2: continue`). -/
def pairApplies (pair : List String) (name1 name2 : String) : Bool :=
  match pair with
  | [k1, k2] =>
      (strContains name1 (lowerStr k1) && strContains name2 (lowerStr k2)) ||
      (strContains name2 (lowerStr k1) && strContains name1 (lowerStr k2))
  | _ => false

/-- `CompatibilityScorer._check_pair_compatibility`: `+0.1` for the first
matching positive pair, else `−0.2` for the first matching negative pair, else 0. -/
def check_pair_compatibility (rules : RuleSet) (product1_name product2_name : String) : ℚ :=
  if rules.positive_pairs.any
      (fun p => pairApplies p (lowerStr product1_name) (lowerStr product2_name)) then 1/10
  else if rules.negative_pairs.any
      (fun p => pairApplies p (lowerStr product1_name) (lowerStr product2_name)) then -(2/10)
  else 0

/-- `CompatibilityScorer._compute_embedding_similarity`: mean pairwise cosine
similarity of the items that carry an embedding; fewer than two such items give
the neutral 0.5.  `sim` stands for the normalise-then-`cosine_similarity`
computation applied to a pair of raw stored vectors. -/
def compute_embedding_similarity (sim : List ℚ → List ℚ → ℚ) (basket : List ScItem) : ℚ :=
  if (basket.filterMap (fun p => p.embedding)).length < 2 then 1/2
  else if (pairsOf (basket.filterMap (fun p => p.embedding))).length = 0 then 1/2
  else ((pairsOf (basket.filterMap (fun p => p.embedding))).map
          (fun pr => sim pr.1 pr.2)).sum /
        ((pairsOf (basket.filterMap (fun p => p.embedding))).length : ℚ)

/-- Membership of a meal component in the union `all_components`. -/
def hasComponent (basket : List ScItem) (comp : String) : Bool :=
  basket.any (fun p => p.meal_components.contains comp)

/-- Total multiplicity of a component over the basket (`component_counts`). -/
def componentCount (basket : List ScItem) (comp : String) : ℕ :=
  (basket.map (fun p => p.meal_components.count comp)).sum

/-- `CompatibilityScorer._compute_meal_component_balance`. -/
def compute_meal_component_balance (basket : List ScItem) : ℚ :=
  min (max ((if hasComponent basket "main_course" then 4/10 else 0) +
            (if hasComponent basket "side_dish" || hasComponent basket "salad"
              then 3/10 else 0) +
            (if hasComponent basket "beverage" then 1/10 else 0) +
            (if hasComponent basket "sauce" then 1/10 else 0) +
            (if hasComponent basket "bakery" then 1/10 else 0) -
            (if 2 < componentCount basket "main_course" then 2/10 else 0)) 0) 1

/-- The per-pair rule modifiers, in loop order. -/
def rule_pair_modifiers (rules : RuleSet) (basket : List ScItem) : List ℚ :=
  (pairsOf basket).map
    (fun pr => check_pair_compatibility rules pr.1.product_name pr.2.product_name)

/-- `num_pairs = len(basket) * (len(basket) - 1) / 2` (Python float division). -/
def num_pairs (basket : List ScItem) : ℚ :=
  (basket.length : ℚ) * ((basket.length : ℚ) - 1) / 2

/-- The normalised rule score mapped into [0, 1]:
`max(0.0, min(1.0, 0.5 + rule_modifier_normalized * 2.5))`. -/
def rule_score (rules : RuleSet) (basket : List ScItem) : ℚ :=
  max 0 (min 1 (1/2 +
    (if 0 < num_pairs basket
      then (rule_pair_modifiers rules basket).sum / num_pairs basket else 0) * (5/2)))

/-- The clamped weighted total before the 4-digit rounding of the report. -/
def total_score_raw (rules : RuleSet) (sim : List ℚ → List ℚ → ℚ)
    (basket : List ScItem) (weights : Weights) : ℚ :=
  max 0 (min 1
    (compute_embedding_similarity sim basket * weights.embedding_similarity +
     rule_score rules basket * weights.rule_based +
     compute_meal_component_balance basket * weights.component_balance))

/-- `CompatibilityScorer.compute_score`. -/
def compute_score (rules : RuleSet) (sim : List ℚ → List ℚ → ℚ)
    (basket : List ScItem) (weights : Weights) : ScoreReport :=
  if basket.length = 0 then ⟨0, 0, 0, 0, 0, 0, 0⟩
  else
    ⟨pyRoundTo 4 (total_score_raw rules sim basket weights),
     pyRoundTo 4 (compute_embedding_similarity sim basket),
     pyRoundTo 4 (rule_score rules basket),
     pyRoundTo 4 (compute_meal_component_balance basket),
     basket.length,
     ((rule_pair_modifiers rules basket).filter (fun m => decide (0 < m))).length,
     ((rule_pair_modifiers rules basket).filter (fun m => decide (m < 0))).length⟩

end CompatibilityScorer

/-! ## Basket Assembler (`CompatibilityAgent.generate_basket` in
`src/agent/compatibility/agent.py`)

The slot-filling phase (stages 1–3) produces a basket of found products and a
list of warnings; stages 4–6 (budget check, scoring, success flag) are modelled
by `finalize_basket` below, taking that basket and the already accumulated
warnings as inputs.  Warning strings are modelled as a tagged type, abstracting
only their numeric formatting. -/

structure AItem where
  product_name : String
  meal_components : List String
  embedding : Option (List ℚ)
  total_price : ℚ
deriving DecidableEq

inductive AgentWarning : Type
  | productNotFound (ingredient : String)
  | budgetExceeded (total budget : ℚ)
  | negativePairs (count : ℕ)
deriving DecidableEq

structure GenerateResult where
  success : Bool
  basket : List AItem
  compatibility_score : ScoreReport
  total_price : ℚ
  budget_rub : Option ℚ
  errors : List AgentWarning
deriving DecidableEq

namespace CompatibilityAgent

/-- The scorer reads these keys of each basket dict. -/
def toScItem (p : AItem) : ScItem := ⟨p.product_name, p.meal_components, p.embedding⟩

/-- `total_price = sum(p['total_price'] for p in basket)`. -/
def sumTotalPrices (basket : List AItem) : ℚ := (basket.map (fun p => p.total_price)).sum

/-- The default weights `compute_score` uses when called with `weights=None`. -/
def default_weights : Weights := ⟨1/2, 3/10, 2/10⟩

/-- Stage-3 budget check: `if budget_rub:` is Python truthiness, so a `None`
budget and a zero budget both skip the check; otherwise an over-budget total
appends a budget-exceeded warning. -/
def budget_warning (basket : List AItem) (budget_rub : Option ℚ) : List AgentWarning :=
  match budget_rub with
  | none => []
  | some b =>
      if b = 0 then []
      else if b < sumTotalPrices basket then
        [AgentWarning.budgetExceeded (sumTotalPrices basket) b]
      else []

/-- The warning appended when the score reports incompatible pairs. -/
def negative_warning (rules : RuleSet) (sim : List ℚ → List ℚ → ℚ)
    (basket : List AItem) : List AgentWarning :=
  if 0 < (CompatibilityScorer.compute_score rules sim (basket.map toScItem)
      default_weights).num_negative_pairs then
    [AgentWarning.negativePairs
      (CompatibilityScorer.compute_score rules sim (basket.map toScItem)
        default_weights).num_negative_pairs]
  else []

/-- The success predicate of `generate_basket`:
`len(basket) > 0 and (budget_rub is None or total_price <= budget_rub) and
compatibility_result['total_score'] >= 0.3`. -/
def success_flag (rules : RuleSet) (sim : List ℚ → List ℚ → ℚ)
    (basket : List AItem) (budget_rub : Option ℚ) : Bool :=
  decide (0 < basket.length) &&
  (match budget_rub with
   | none => true
   | some b => decide (sumTotalPrices basket ≤ b)) &&
  decide ((3:ℚ)/10 ≤
    (CompatibilityScorer.compute_score rules sim (basket.map toScItem)
      default_weights).total_score)

/-- Stages 4–6 of `CompatibilityAgent.generate_basket`: check the budget,
score the basket, decide success, and return the basket with the accumulated
warnings (the basket is returned whether or not it is over budget). -/
def finalize_basket (rules : RuleSet) (sim : List ℚ → List ℚ → ℚ)
    (basket : List AItem) (budget_rub : Option ℚ) (errors0 : List AgentWarning) :
    GenerateResult :=
  ⟨success_flag rules sim basket budget_rub,
   basket,
   CompatibilityScorer.compute_score rules sim (basket.map toScItem) default_weights,
   pyRoundTo 2 (sumTotalPrices basket),
   budget_rub,
   errors0 ++ budget_warning basket budget_rub ++ negative_warning rules sim basket⟩

end CompatibilityAgent

/-! ## Masked Sequential Constructor (`CompatibilityEnv` in
`src/agent/compatibility_env.py`)

The environment state is `(cart_indices, current_sum, steps)`.  `action_masks`
and the state-transition part of `step` are modelled below; the observation
vector, reward and termination flags are outputs that never feed back into the
state, so claims about the mask and the cart need only this state. -/

structure EnvProduct where
  id : ℤ
  product_name : String
  product_category : String
  price_per_unit : ℚ
  unit : String
  tags : List String
  meal_components : List String
deriving DecidableEq

structure MealRequirements where
  required : List String
  optional : List String
  min_items : ℕ
  max_items : ℕ
deriving DecidableEq

namespace CompatibilityEnv

/-- `MEAL_REQUIREMENTS` with the `.get(meal_type, MEAL_REQUIREMENTS['lunch'])`
default of `_get_meal_requirements`. -/
def MEAL_REQUIREMENTS (meal_type : String) : MealRequirements :=
  if meal_type = "breakfast" then ⟨["bakery", "beverage"], ["dessert", "main_course"], 3, 8⟩
  else if meal_type = "lunch" then
    ⟨["main_course", "side_dish", "beverage"], ["salad", "dessert", "bakery"], 5, 12⟩
  else if meal_type = "dinner" then
    ⟨["main_course", "side_dish", "beverage"], ["salad", "sauce"], 5, 12⟩
  else if meal_type = "snack" then ⟨["beverage"], ["dessert", "bakery", "snack"], 2, 5⟩
  else ⟨["main_course", "side_dish", "beverage"], ["salad", "dessert", "bakery"], 5, 12⟩

structure Env where
  products : List EnvProduct
  meal_type : String
  budget : ℚ
  max_steps : ℕ
deriving DecidableEq

structure EState where
  cart_indices : List ℕ
  current_sum : ℚ
  steps : ℕ
deriving DecidableEq

/-- `reset`: empty cart, zero cost, zero steps. -/
def reset : EState := ⟨[], 0, 0⟩

def productAt (env : Env) (i : ℕ) : EnvProduct := env.products.getD i ⟨0, "", "", 0, "", [], []⟩

/-- The component list tracked by `_calculate_component_coverage`. -/
def tracked_components : List String :=
  ["main_course", "side_dish", "beverage", "bakery", "dessert", "salad", "sauce"]

/-- `coverage[comp]` is true when the component is tracked and some cart product
carries it. -/
def covered (env : Env) (st : EState) (comp : String) : Bool :=
  tracked_components.contains comp &&
    st.cart_indices.any (fun idx => (productAt env idx).meal_components.contains comp)

/-- `missing_required = set(requirements['required']) - covered components`. -/
def missing_required (env : Env) (st : EState) : List String :=
  (MEAL_REQUIREMENTS env.meal_type).required.filter (fun c => !(covered env st c))

/-- The mask after steps 1 and 2 of `action_masks`: not already in the cart, and
adding the product does not push the running cost above `budget * 1.3`. -/
def mask_step12 (env : Env) (st : EState) (i : ℕ) : Bool :=
  !(st.cart_indices.contains i) &&
    !(decide (env.budget * (13/10) < st.current_sum + (productAt env i).price_per_unit))

/-- Product `i` carries at least one still-missing required component. -/
def covers_missing (env : Env) (st : EState) (i : ℕ) : Bool :=
  (productAt env i).meal_components.any (fun c => (missing_required env st).contains c)

/-- `has_required_mask[:n_products].any()`: some product unmasked after steps
1–2 covers a missing required component. -/
def any_covering (env : Env) (st : EState) : Bool :=
  (List.range env.products.length).any
    (fun j => mask_step12 env st j && covers_missing env st j)

/-- The guard of step 3: some required component missing and the cart below
`max_items - 2`. -/
def prioritize (env : Env) (st : EState) : Bool :=
  !(missing_required env st).isEmpty &&
    decide (st.cart_indices.length < (MEAL_REQUIREMENTS env.meal_type).max_items - 2)

/-- Entry `i < n_products` of the mask returned by `action_masks`. -/
def action_masks_pick (env : Env) (st : EState) (i : ℕ) : Bool :=
  if prioritize env st && any_covering env st then
    mask_step12 env st i && covers_missing env st i
  else mask_step12 env st i

/-- The final entry of the mask (`mask[-1] = True`): skip is always allowed. -/
def action_masks_skip (env : Env) (st : EState) : Bool := true

/-- The state-transition part of `step`: increment the step counter; a pick of a
product not yet in the cart appends it and adds its price; a skip (`action ≥
n_products`) or a duplicate pick leaves cart and cost unchanged (that branch
only assigns the penalty reward −5). -/
def step (env : Env) (st : EState) (action : ℕ) : EState :=
  if env.products.length ≤ action then ⟨st.cart_indices, st.current_sum, st.steps + 1⟩
  else if !(st.cart_indices.contains action) then
    ⟨st.cart_indices ++ [action],
     st.current_sum + (productAt env action).price_per_unit, st.steps + 1⟩
  else ⟨st.cart_indices, st.current_sum, st.steps + 1⟩

/-- Any episode: `reset()` followed by an arbitrary action sequence. -/
def run_steps (env : Env) (actions : List ℕ) : EState := actions.foldl (step env) reset

/-- A one-product snack environment used by the concrete witnesses. -/
def sampleEnv : Env := ⟨[⟨1, "p", "c", 100, "шт", [], ["beverage"]⟩], "snack", 1000, 15⟩

/-! Spec-language predicates for C5, phrased directly from the claim. -/

/-- Some chosen product carries the component. -/
def CoveredByCart (env : Env) (st : EState) (comp : String) : Prop :=
  ∃ idx ∈ st.cart_indices, comp ∈ (productAt env idx).meal_components

/-- A required meal-role that is still uncovered. -/
def UncoveredRequired (env : Env) (st : EState) (comp : String) : Prop :=
  comp ∈ (MEAL_REQUIREMENTS env.meal_type).required ∧ ¬ CoveredByCart env st comp

/-- Product `i` covers some uncovered required role. -/
def ProductCoversGap (env : Env) (st : EState) (i : ℕ) : Prop :=
  ∃ comp ∈ (productAt env i).meal_components, UncoveredRequired env st comp

/-- Some product, not yet chosen and within the hard cap, covers an uncovered
required role (the condition under which rule 3 is not relaxed). -/
def SomeCoveringRemains (env : Env) (st : EState) : Prop :=
  ∃ j < env.products.length,
    (j ∉ st.cart_indices ∧
      ¬ (env.budget * (13/10) < st.current_sum + (productAt env j).price_per_unit)) ∧
    ProductCoversGap env st j

end CompatibilityEnv

/-! ## Scenario scaling and selection

Two `_scale_scenario` implementations exist: the basic matcher in
`src/agent/compatibility/scenario_matcher.py` (scales by `people / serves_base`,
rounds small values to whole units) and the smart matcher in
`src/agents/compatibility/scenario_matcher.py` (scales by `people`, rounds
small values to one decimal).  Both round `[10, 100)` to the nearest 5 and
`≥ 100` to the nearest 10 via Python `round`, and floor the result at 1. -/

structure ScenarioComponent where
  ingredient : String
  search_query : String
  unit : String
  quantity_per_person : ℚ
  required : Bool
  meal_component : String
deriving DecidableEq

structure ScaledComponent where
  component : ScenarioComponent
  quantity_scaled : ℚ
deriving DecidableEq

structure Scenario where
  id : String
  name : String
  meal_type : String
  estimated_time_min : ℕ
  serves_base : ℕ
  components : List ScenarioComponent
deriving DecidableEq

namespace BasicScenarioMatcher

/-- The scaled scenario of the basic matcher carries `scale_factor = people /
serves_base`. -/
structure ScaledScenario where
  base : Scenario
  components : List ScaledComponent
  scaled_for_people : ℕ
  scale_factor : ℚ
deriving DecidableEq

/-- One component's `quantity_scaled` in
`src/agent/compatibility/scenario_matcher.py`: multiply by the scale factor,
round by magnitude tier (whole units below 10, nearest 5 below 100, nearest 10
otherwise), floor at 1. -/
def scale_quantity (quantity_per_person scale_factor : ℚ) : ℚ :=
  max (if quantity_per_person * scale_factor < 10 then
        ((pyRound (quantity_per_person * scale_factor) : ℚ))
      else if quantity_per_person * scale_factor < 100 then
        ((pyRound (quantity_per_person * scale_factor / 5) : ℚ)) * 5
      else ((pyRound (quantity_per_person * scale_factor / 10) : ℚ)) * 10) 1

/-- `ScenarioMatcher._scale_scenario` of the basic matcher. -/
def scale_scenario (sc : Scenario) (people : ℕ) : ScaledScenario :=
  ⟨sc,
   sc.components.map (fun c =>
     ⟨c, scale_quantity c.quantity_per_person ((people : ℚ) / (sc.serves_base : ℚ))⟩),
   people, (people : ℚ) / (sc.serves_base : ℚ)⟩

end BasicScenarioMatcher

namespace SmartScenarioMatcher

/-- The scaled scenario of the smart matcher records `original_serves_base`
instead of a scale factor. -/
structure ScaledScenario where
  base : Scenario
  components : List ScaledComponent
  scaled_for_people : ℕ
  original_serves_base : ℕ
deriving DecidableEq

/-- One component's `quantity_scaled` in
`src/agents/compatibility/scenario_matcher.py`: multiply by `people`, round to
one decimal below 10 (`round(scaled_quantity, 1)`), to the nearest 5 below 100,
to the nearest 10 otherwise, floor at 1. -/
def scale_quantity (quantity_per_person : ℚ) (people : ℕ) : ℚ :=
  max (if quantity_per_person * people < 10 then
        pyRoundTo 1 (quantity_per_person * people)
      else if quantity_per_person * people < 100 then
        ((pyRound (quantity_per_person * people / 5) : ℚ)) * 5
      else ((pyRound (quantity_per_person * people / 10) : ℚ)) * 10) 1

/-- `ScenarioMatcher._scale_scenario` of the smart matcher. -/
def scale_scenario (sc : Scenario) (people : ℕ) : ScaledScenario :=
  ⟨sc,
   sc.components.map (fun c => ⟨c, scale_quantity c.quantity_per_person people⟩),
   people, sc.serves_base⟩

/-- The inclusive upper bound of the smart strategy's randomized tie-break
`r_ind = randint(0, min(5, len(scored_scenarios)))`. -/
def smart_tiebreak_bound (n : ℕ) : ℕ := min 5 n

/-- All values `randint(0, min(5, n))` can return (both ends inclusive). -/
def smart_tiebreak_indices (n : ℕ) : List ℕ := List.range (smart_tiebreak_bound n + 1)

/-- `scored_scenarios[r_ind]`; `none` models the IndexError raised when the
index is past the end of the list. -/
def smart_select {α : Type} (scored : List α) (r : ℕ) : Option α := scored.get? r

end SmartScenarioMatcher

/-- Modelled from the spec (claim C6's rounding rule, applied to the product
`quantityPerPerson × people`): values below 10 round to integer units, below 100
to the nearest 5, otherwise to the nearest 10, with a floor of 1. -/
def claimTierScale (x : ℚ) : ℚ :=
  if x < 10 then max ((pyRound x : ℚ)) 1
  else if x < 100 then max ((pyRound (x / 5) : ℚ) * 5) 1
  else max ((pyRound (x / 10) : ℚ) * 10) 1

/-- Modelled from the spec, amended for the smart matcher: values below 10 round
to one decimal place instead of integer units. -/
def claimTierScaleTenth (x : ℚ) : ℚ :=
  if x < 10 then max (pyRoundTo 1 x) 1
  else if x < 100 then max ((pyRound (x / 5) : ℚ) * 5) 1
  else max ((pyRound (x / 10) : ℚ) * 10) 1

/-! ## Slot Filler unit arithmetic
(`ProductSearcher.search_by_ingredient` in `src/agent/compatibility/product_searcher.py`) -/

namespace ProductSearcher

/-- The quantity fields `search_by_ingredient` attaches to the chosen product. -/
structure SearchQuantities where
  quantity_needed : ℤ
  total_price : ℚ
  fractional_cost : ℚ
  full_package_cost : ℚ
  quantity_grams_per_person : ℚ
deriving DecidableEq

/-- Package size expressed in grams/millilitres: `кг` and `л` multiply by 1000,
`г`/`мл` and piece goods stay as stored. -/
def package_size_grams (unit : String) (package_size : ℚ) : ℚ :=
  if unit = "кг" then package_size * 1000
  else if unit = "л" then package_size * 1000
  else if unit = "г" then package_size
  else if unit = "мл" then package_size
  else package_size

/-- The quantity/price arithmetic of `search_by_ingredient`:
`num_packages = ceil(quantity_grams × people / package_size_grams)` is stored in
`quantity_needed`; `total_price = num_packages × price`;
`fractional_cost = (needed / package_size_grams) × price` (both rounded to two
decimals). -/
def unit_calc (quantity_grams : ℚ) (people : ℕ) (unit : String)
    (package_size price_per_unit : ℚ) : SearchQuantities :=
  ⟨⌈quantity_grams * people / package_size_grams unit package_size⌉,
   pyRoundTo 2 ((⌈quantity_grams * people / package_size_grams unit package_size⌉ : ℚ) *
     price_per_unit),
   pyRoundTo 2 ((quantity_grams * people / package_size_grams unit package_size) *
     price_per_unit),
   pyRoundTo 2 ((⌈quantity_grams * people / package_size_grams unit package_size⌉ : ℚ) *
     price_per_unit),
   quantity_grams⟩

end ProductSearcher

/-! ## Theorems -/

theorem mem_insertDescBy {α : Type} (key : α → ℚ) (a x : α) (l : List α) :
    x ∈ insertDescBy key a l ↔ x ∈ l ∨ x = a := by
  induction l with
  | nil => simp [insertDescBy]
  | cons b rest ih =>
      simp only [insertDescBy]
      split
      · simp [or_comm, or_assoc, or_left_comm]
      · simp [ih, or_assoc]

theorem mem_sortDescBy {α : Type} (key : α → ℚ) (l : List α) (x : α) :
    x ∈ sortDescBy key l ↔ x ∈ l := by
  have main : ∀ (l acc : List α), x ∈ l.foldl (fun acc a => insertDescBy key a acc) acc ↔
      x ∈ acc ∨ x ∈ l := by
    intro l
    induction l with
    | nil => intro acc; simp
    | cons b rest ih =>
        intro acc
        simp only [List.foldl_cons, ih, mem_insertDescBy, List.mem_cons]
        tauto
  simpa using main l []

namespace BudgetAgent

theorem find_cheaper_alternative_spec (pool : List DBRow) (sim : List ℚ → List ℚ → ℚ)
    (item : BItem) (d : ℚ) (c : Candidate)
    (h : find_cheaper_alternative pool sim item d = some c) :
    c.price < item.price * (1 - d) ∧ c.id ≠ item.id ∧ ∃ r ∈ pool, c.price = r.price_per_unit := by
  unfold find_cheaper_alternative at h
  cases hemb : item.embedding with
  | none => rw [hemb] at h; exact absurd h (by simp)
  | some emb =>
      rw [hemb] at h
      simp only at h
      have hid0 := List.find?_some h
      simp only at hid0
      have hmem := List.mem_of_find?_eq_some h
      rw [mem_sortDescBy] at hmem
      obtain ⟨r, hr, hrc⟩ := List.mem_filterMap.mp hmem
      have hrf := List.mem_filter.mp hr
      obtain ⟨hrpool, hpred⟩ := hrf
      have hprice : c.price = r.price_per_unit := by
        unfold rowToCandidate at hrc
        cases hre : r.embedding with
        | none => rw [hre] at hrc; exact absurd hrc (by simp)
        | some e =>
            rw [hre] at hrc
            dsimp only at hrc
            by_cases he : e = []
            · rw [if_pos he] at hrc; exact absurd hrc (by simp)
            · rw [if_neg he] at hrc
              cases hrc
              rfl
      have hlt : r.price_per_unit < item.price * (1 - d) := by
        unfold rowMatches at hpred
        have := (Bool.and_eq_true _ _).mp hpred
        have h2 := (Bool.and_eq_true _ _).mp this.1
        exact of_decide_eq_true h2.2
      refine ⟨by rw [hprice]; exact hlt, by simpa using hid0, r, hrpool, hprice⟩

theorem sumPrices_nil : sumPrices [] = 0 := rfl

theorem sumPrices_set (bk : List BItem) (idx : ℕ) (a : BItem) (h : idx < bk.length) :
    sumPrices (bk.set idx a) = sumPrices bk - (bk[idx]).price + a.price := by
  induction bk generalizing idx with
  | nil => simp at h
  | cons b rest ih =>
      cases idx with
      | zero => simp [sumPrices]; ring
      | succ n =>
          have hn : n < rest.length := by simpa using h
          simp only [List.set, sumPrices, List.map_cons, List.sum_cons] at *
          rw [ih n hn]
          simp
          ring

theorem optimizeLoop_length (pool : List DBRow) (sim : List ℚ → List ℚ → ℚ) (d b : ℚ)
    (idxs : List ℕ) (bk : List BItem) (reps : List Replacement) (s : ℚ) :
    (optimizeLoop pool sim d b idxs bk reps s).1.length = bk.length := by
  induction idxs generalizing bk reps s with
  | nil => rfl
  | cons idx rest ih =>
      unfold optimizeLoop
      split
      · rfl
      · split
        · exact ih bk reps s
        · rw [ih]
          simp

/-- In the `some` branch of the loop the index is always in range: an
out-of-range index yields the default item, whose embedding is `none`, and
`find_cheaper_alternative` then returns `none`. -/
theorem fca_some_index_lt (pool : List DBRow) (sim : List ℚ → List ℚ → ℚ)
    (bk : List BItem) (idx : ℕ) (d : ℚ) (alt : Candidate)
    (h : find_cheaper_alternative pool sim (bk.getD idx default) d = some alt) :
    idx < bk.length := by
  by_contra hge
  push_neg at hge
  rw [List.getD_eq_default bk default hge] at h
  unfold find_cheaper_alternative at h
  exact absurd h (by simp [default])

theorem optimizeLoop_sum_le (pool : List DBRow) (sim : List ℚ → List ℚ → ℚ) (d b : ℚ)
    (hd : 0 ≤ d) (hpool : ∀ r ∈ pool, 0 ≤ r.price_per_unit)
    (idxs : List ℕ) (bk : List BItem) (reps : List Replacement) (s : ℚ)
    (hbk : ∀ it ∈ bk, 0 ≤ it.price) :
    sumPrices (optimizeLoop pool sim d b idxs bk reps s).1 ≤ sumPrices bk := by
  induction idxs generalizing bk reps s with
  | nil => exact le_refl _
  | cons idx rest ih =>
      unfold optimizeLoop
      split
      · exact le_refl _
      · split
        · exact ih bk reps s hbk
        · rename_i alt halt
          have hidx : idx < bk.length := fca_some_index_lt pool sim bk idx d alt halt
          obtain ⟨hlt, _, r, hrpool, hrp⟩ :=
            find_cheaper_alternative_spec pool sim (bk.getD idx default) d alt halt
          rw [List.getD_eq_getElem bk default hidx] at hlt
          have hitem : 0 ≤ (bk[idx]).price := hbk _ (List.getElem_mem hidx)
          have haltp : 0 ≤ alt.price := hrp ▸ hpool r hrpool
          have hdisc : alt.price ≤ (bk[idx]).price := by
            calc alt.price ≤ (bk[idx]).price * (1 - d) := le_of_lt hlt
              _ ≤ (bk[idx]).price := mul_le_of_le_one_right hitem (by linarith)
          have hset : ∀ it ∈ bk.set idx (candidateToItem alt), 0 ≤ it.price := by
            intro it hit
            rcases List.mem_or_eq_of_mem_set hit with h1 | h1
            · exact hbk it h1
            · rw [h1]; exact haltp
          calc sumPrices (optimizeLoop pool sim d b rest
                  (bk.set idx (candidateToItem alt)) _ _).1
              ≤ sumPrices (bk.set idx (candidateToItem alt)) := ih _ _ _ hset
            _ = sumPrices bk - (bk[idx]).price + (candidateToItem alt).price :=
                sumPrices_set bk idx _ hidx
            _ ≤ sumPrices bk := by simp [candidateToItem]; linarith

/-- Pointwise invariant carried through the replacement loop: each position
either still holds the original item or holds an item whose (nonnegative) price
is at most the original price times `(1 − min_discount)`. -/
theorem optimizeLoop_pointwise (pool : List DBRow) (sim : List ℚ → List ℚ → ℚ) (d b : ℚ)
    (hd : 0 ≤ d) (hpool : ∀ r ∈ pool, 0 ≤ r.price_per_unit)
    (idxs : List ℕ) (orig bk : List BItem) (reps : List Replacement) (s : ℚ)
    (hlen : bk.length = orig.length)
    (hinv : ∀ i, i < orig.length →
      bk.getD i default = orig.getD i default ∨
      ((bk.getD i default).price ≤ (orig.getD i default).price * (1 - d) ∧
        0 ≤ (bk.getD i default).price)) :
    ∀ i, i < orig.length →
      (optimizeLoop pool sim d b idxs bk reps s).1.getD i default = orig.getD i default ∨
      (((optimizeLoop pool sim d b idxs bk reps s).1.getD i default).price ≤
          (orig.getD i default).price * (1 - d) ∧
        0 ≤ ((optimizeLoop pool sim d b idxs bk reps s).1.getD i default).price) := by
  induction idxs generalizing bk reps s with
  | nil => exact hinv
  | cons idx rest ih =>
      unfold optimizeLoop
      split
      · exact hinv
      · split
        · exact ih bk reps s hlen hinv
        · rename_i alt halt
          have hidx : idx < bk.length := fca_some_index_lt pool sim bk idx d alt halt
          obtain ⟨hlt, _, r, hrpool, hrp⟩ :=
            find_cheaper_alternative_spec pool sim (bk.getD idx default) d alt halt
          have haltp : 0 ≤ alt.price := hrp ▸ hpool r hrpool
          refine ih _ _ _ (by simpa using hlen) ?_
          intro i h1
          by_cases hip : idx = i
          · subst hip
            have hset : (bk.set idx (candidateToItem alt)).getD idx default =
                candidateToItem alt := by
              rw [List.getD_eq_getElem _ default (by simpa using hidx)]
              exact List.getElem_set_self _
            rw [hset]
            rcases hinv idx h1 with hcase | ⟨hle, hpos⟩
            · right
              constructor
              · rw [← hcase]
                exact le_of_lt (by simpa [candidateToItem] using hlt)
              · simpa [candidateToItem] using haltp
            · right
              refine ⟨?_, by simpa [candidateToItem] using haltp⟩
              have step1 : (candidateToItem alt).price ≤ (bk.getD idx default).price := by
                simp only [candidateToItem]
                calc alt.price ≤ (bk.getD idx default).price * (1 - d) := le_of_lt hlt
                  _ ≤ (bk.getD idx default).price := mul_le_of_le_one_right hpos (by linarith)
              calc (candidateToItem alt).price ≤ (bk.getD idx default).price := step1
                _ ≤ (orig.getD idx default).price * (1 - d) := hle
          · have hset : (bk.set idx (candidateToItem alt)).getD i default =
                bk.getD i default := by
              by_cases hi2 : i < bk.length
              · rw [List.getD_eq_getElem _ default (by simpa using hi2),
                    List.getD_eq_getElem _ default hi2]
                exact List.getElem_set_ne hip _
              · push_neg at hi2
                rw [List.getD_eq_default _ default (by simpa using hi2),
                    List.getD_eq_default _ default hi2]
            rw [hset]
            exact hinv i h1

/-- Claim C1 core theorem: `optimize` never increases the basket's total price,
keeps the basket's length, and every position either keeps its original item or
holds a replacement priced at most `originalPrice × (1 − minDiscount)`. -/
theorem optimize_never_increases (pool : List DBRow) (sim : List ℚ → List ℚ → ℚ)
    (basket : List BItem) (budget_rub : Option ℚ) (d : ℚ)
    (hne : basket ≠ []) (hd : 0 ≤ d)
    (hbk : ∀ it ∈ basket, 0 ≤ it.price)
    (hpool : ∀ r ∈ pool, 0 ≤ r.price_per_unit) :
    (optimize pool sim basket budget_rub d).total_price ≤ sumPrices basket ∧
    (optimize pool sim basket budget_rub d).basket.length = basket.length ∧
    ∀ i, i < basket.length →
      (optimize pool sim basket budget_rub d).basket.getD i default = basket.getD i default ∨
      ((optimize pool sim basket budget_rub d).basket.getD i default).price ≤
        (basket.getD i default).price * (1 - d) := by
  unfold optimize
  rw [if_neg (by simpa using hne)]
  cases budget_rub with
  | none => simp
  | some b =>
      dsimp only
      by_cases hle : sumPrices basket ≤ b
      · simp [hle]
      · rw [if_neg hle]
        simp only
        refine ⟨optimizeLoop_sum_le pool sim d b hd hpool _ basket [] 0 hbk,
          optimizeLoop_length pool sim d b _ basket [] 0, ?_⟩
        intro i h1
        have := optimizeLoop_pointwise pool sim d b hd hpool (sorted_indices basket)
          basket basket [] 0 rfl (fun i _ => Or.inl rfl) i h1
        rcases this with h | ⟨h, _⟩
        · exact Or.inl h
        · exact Or.inr h

/-- Witness for C1 at a concrete input. -/
theorem optimize_never_increases_witness :
    ((⟨[⟨1, "a", 5, [], none⟩], some 1, (3:ℚ)/10⟩ :
        List BItem × Option ℚ × ℚ) = ⟨[⟨1, "a", 5, [], none⟩], some 1, 3/10⟩) ∧
    (optimize [] (fun _ _ => 0) [⟨1, "a", 5, [], none⟩] (some 1) (3/10)).total_price ≤
      sumPrices [⟨1, "a", 5, [], none⟩] :=
  ⟨rfl,
    (optimize_never_increases [] (fun _ _ => 0) [⟨1, "a", 5, [], none⟩] (some 1) (3/10)
      (by simp) (by norm_num)
      (by intro it hit; simp at hit; rw [hit]; norm_num)
      (by intro r hr; simp at hr)).1⟩

/-- Claim C2: when the basket's total is within budget (or no budget is given),
`optimize` is a no-op on every observable field, and running it a second time
returns the very same result. -/
theorem optimize_noop_core (pool : List DBRow) (sim : List ℚ → List ℚ → ℚ)
    (bk : List BItem) (budget_rub : Option ℚ) (d : ℚ)
    (hemp : bk.isEmpty = false) (hb : ∀ b, budget_rub = some b → sumPrices bk ≤ b) :
    optimize pool sim bk budget_rub d =
      ⟨bk, sumPrices bk, 0, [], true, "В пределах бюджета"⟩ := by
  unfold optimize
  rw [if_neg (by simp [hemp])]
  cases budget_rub with
  | none => rfl
  | some b =>
      dsimp only
      rw [if_pos (hb b rfl)]

theorem optimize_noop_within_budget (pool : List DBRow) (sim : List ℚ → List ℚ → ℚ)
    (basket : List BItem) (budget_rub : Option ℚ) (d : ℚ)
    (hb : ∀ b, budget_rub = some b → sumPrices basket ≤ b) :
    (optimize pool sim basket budget_rub d).basket = basket ∧
    (optimize pool sim basket budget_rub d).total_price = sumPrices basket ∧
    (optimize pool sim basket budget_rub d).saved = 0 ∧
    (optimize pool sim basket budget_rub d).replacements = [] ∧
    (optimize pool sim basket budget_rub d).within_budget = true ∧
    optimize pool sim (optimize pool sim basket budget_rub d).basket budget_rub d =
      optimize pool sim basket budget_rub d := by
  by_cases hemp : basket.isEmpty = true
  · have hnil : basket = [] := List.isEmpty_iff.mp hemp
    subst hnil
    have h0 : ∀ bud : Option ℚ, optimize pool sim [] bud d =
        ⟨[], 0, 0, [], true, "Пустая корзина"⟩ := by
      intro bud
      unfold optimize
      rfl
    rw [h0 budget_rub]
    exact ⟨rfl, rfl, rfl, rfl, rfl, h0 budget_rub⟩
  · have hres := optimize_noop_core pool sim basket budget_rub d
      (Bool.eq_false_iff.mpr hemp) hb
    rw [hres]
    exact ⟨rfl, rfl, rfl, rfl, rfl, hres⟩

/-- Witness for C2 at a concrete input. -/
theorem optimize_noop_within_budget_witness :
    (∀ b, (some (10:ℚ)) = some b → sumPrices [⟨1, "a", 5, [], none⟩] ≤ b) ∧
    (optimize [] (fun _ _ => 0) [⟨1, "a", 5, [], none⟩] (some 10) (3/10)).basket =
      [⟨1, "a", 5, [], none⟩] := by
  have hb : ∀ b, (some (10:ℚ)) = some b → sumPrices [⟨1, "a", 5, [], none⟩] ≤ b := by
    intro b hbeq
    cases hbeq
    show (5:ℚ) + 0 ≤ 10
    norm_num
  exact ⟨hb,
    (optimize_noop_within_budget [] (fun _ _ => 0) [⟨1, "a", 5, [], none⟩] (some 10)
      (3/10) hb).1⟩

end BudgetAgent

theorem pyRound_nonneg (q : ℚ) (h : 0 ≤ q) : 0 ≤ pyRound q := by
  have hf : (0:ℤ) ≤ ⌊q⌋ := Int.floor_nonneg.mpr h
  unfold pyRound
  split
  · exact hf
  · split
    · omega
    · split <;> omega

theorem pyRound_le_of_le (q : ℚ) (N : ℤ) (h : q ≤ N) : pyRound q ≤ N := by
  have hfle : ⌊q⌋ ≤ N := by
    have := Int.floor_le_floor h
    simpa using this
  unfold pyRound
  split
  · exact hfle
  · rename_i h1
    push_neg at h1
    have hlt : (⌊q⌋ : ℚ) < q := by
      have : (0:ℚ) < 1/2 := by norm_num
      have h2 : (0:ℚ) < q - ⌊q⌋ := lt_of_lt_of_le this h1
      linarith
    have hltN : ⌊q⌋ < N := by
      have : (⌊q⌋ : ℚ) < (N : ℚ) := lt_of_lt_of_le hlt h
      exact_mod_cast this
    split
    · omega
    · split <;> omega

theorem pyRoundTo4_mem_unit (q : ℚ) (h0 : 0 ≤ q) (h1 : q ≤ 1) :
    0 ≤ pyRoundTo 4 q ∧ pyRoundTo 4 q ≤ 1 := by
  have hz : 0 ≤ pyRound (q * 10 ^ 4) := pyRound_nonneg _ (by positivity)
  have ho : pyRound (q * 10 ^ 4) ≤ (10 ^ 4 : ℤ) := by
    apply pyRound_le_of_le
    push_cast
    nlinarith
  constructor
  · unfold pyRoundTo
    positivity
  · unfold pyRoundTo
    rw [div_le_one (by positivity)]
    exact_mod_cast ho

theorem clamp_unit_mem (x : ℚ) : 0 ≤ max 0 (min 1 x) ∧ max 0 (min 1 x) ≤ 1 := by
  constructor
  · exact le_max_left 0 _
  · exact max_le (by norm_num) (min_le_left 1 x)

/-- Claim C3: the compatibility total score always lies in [0, 1], and the empty
basket yields the all-zero report (every sub-term 0). -/
theorem compute_score_unit_interval_and_empty (rules : RuleSet)
    (sim : List ℚ → List ℚ → ℚ) (basket : List ScItem) (weights : Weights) :
    (0 ≤ (CompatibilityScorer.compute_score rules sim basket weights).total_score ∧
      (CompatibilityScorer.compute_score rules sim basket weights).total_score ≤ 1) ∧
    CompatibilityScorer.compute_score rules sim [] weights = ⟨0, 0, 0, 0, 0, 0, 0⟩ := by
  constructor
  · unfold CompatibilityScorer.compute_score
    split
    · norm_num
    · obtain ⟨hl, hr⟩ := clamp_unit_mem
        (CompatibilityScorer.compute_embedding_similarity sim basket *
            weights.embedding_similarity +
          CompatibilityScorer.rule_score rules basket * weights.rule_based +
          CompatibilityScorer.compute_meal_component_balance basket *
            weights.component_balance)
      dsimp only
      unfold CompatibilityScorer.total_score_raw
      exact pyRoundTo4_mem_unit _ hl hr
  · rfl

/-- Counterexample to claim C4 as stated: with a zero budget (set, but falsy in
Python) and a nonzero total, the basket is over budget — the success predicate
compares against the set budget and fails — yet no over-budget warning is
recorded, because `if budget_rub:` skips the check. -/
theorem generate_basket_zero_budget_counterexample :
    (0:ℚ) < CompatibilityAgent.sumTotalPrices [⟨"x", [], none, 5⟩] ∧
    (CompatibilityAgent.finalize_basket ⟨[], []⟩ (fun _ _ => 0)
        [⟨"x", [], none, 5⟩] (some 0) []).success = false ∧
    (CompatibilityAgent.finalize_basket ⟨[], []⟩ (fun _ _ => 0)
        [⟨"x", [], none, 5⟩] (some 0) []).basket = [⟨"x", [], none, 5⟩] ∧
    (CompatibilityAgent.finalize_basket ⟨[], []⟩ (fun _ _ => 0)
        [⟨"x", [], none, 5⟩] (some 0) []).errors = [] := by
  refine ⟨by norm_num [CompatibilityAgent.sumTotalPrices], ?_, rfl, ?_⟩
  · simp only [CompatibilityAgent.finalize_basket, CompatibilityAgent.success_flag]
    norm_num [CompatibilityAgent.sumTotalPrices]
  · simp only [CompatibilityAgent.finalize_basket, CompatibilityAgent.budget_warning,
      CompatibilityAgent.negative_warning, CompatibilityScorer.compute_score,
      CompatibilityScorer.rule_pair_modifiers, pairsOf]
    norm_num [CompatibilityAgent.sumTotalPrices]

/-- Claim C4 (amended): the success flag is true exactly when the basket is
non-empty, within budget (or no budget set) and the compatibility total is at
least 0.3; an over-budget basket is still returned, and the over-budget warning
is recorded whenever the set budget is nonzero. -/
theorem generate_basket_success_iff (rules : RuleSet) (sim : List ℚ → List ℚ → ℚ)
    (basket : List AItem) (budget_rub : Option ℚ) (errors0 : List AgentWarning) :
    ((CompatibilityAgent.finalize_basket rules sim basket budget_rub errors0).success = true ↔
      (basket ≠ [] ∧
        (budget_rub = none ∨
          ∃ b, budget_rub = some b ∧ CompatibilityAgent.sumTotalPrices basket ≤ b) ∧
        (3:ℚ)/10 ≤ (CompatibilityScorer.compute_score rules sim
          (basket.map CompatibilityAgent.toScItem)
          CompatibilityAgent.default_weights).total_score)) ∧
    (CompatibilityAgent.finalize_basket rules sim basket budget_rub errors0).basket =
      basket ∧
    (∀ b, budget_rub = some b → b ≠ 0 →
      b < CompatibilityAgent.sumTotalPrices basket →
      AgentWarning.budgetExceeded (CompatibilityAgent.sumTotalPrices basket) b ∈
        (CompatibilityAgent.finalize_basket rules sim basket budget_rub errors0).errors) := by
  refine ⟨?_, rfl, ?_⟩
  · simp only [CompatibilityAgent.finalize_basket, CompatibilityAgent.success_flag,
      Bool.and_eq_true, decide_eq_true_eq]
    cases budget_rub with
    | none =>
        simp only [List.length_pos]
        tauto
    | some b =>
        simp only [List.length_pos, Option.some.injEq, decide_eq_true_eq]
        constructor
        · rintro ⟨⟨hne, hle⟩, hsc⟩
          exact ⟨hne, Or.inr ⟨b, rfl, hle⟩, hsc⟩
        · rintro ⟨hne, hb, hsc⟩
          rcases hb with h | ⟨b2, hb2, hle⟩
          · exact absurd h (by simp)
          · cases hb2
            exact ⟨⟨hne, hle⟩, hsc⟩
  · intro b hb hb0 hlt
    subst hb
    simp only [CompatibilityAgent.finalize_basket]
    have hw : CompatibilityAgent.budget_warning basket (some b) =
        [AgentWarning.budgetExceeded (CompatibilityAgent.sumTotalPrices basket) b] := by
      simp [CompatibilityAgent.budget_warning, hb0, hlt]
    rw [hw]
    simp

theorem required_subset_tracked (mt : String) :
    ∀ c ∈ (CompatibilityEnv.MEAL_REQUIREMENTS mt).required,
      c ∈ CompatibilityEnv.tracked_components := by
  unfold CompatibilityEnv.MEAL_REQUIREMENTS CompatibilityEnv.tracked_components
  split
  · decide
  · split
    · decide
    · split
      · decide
      · split <;> decide

theorem covered_iff (env : CompatibilityEnv.Env) (st : CompatibilityEnv.EState)
    (c : String) :
    CompatibilityEnv.covered env st c = true ↔
      c ∈ CompatibilityEnv.tracked_components ∧ CompatibilityEnv.CoveredByCart env st c := by
  simp [CompatibilityEnv.covered, CompatibilityEnv.CoveredByCart]

theorem mem_missing_required (env : CompatibilityEnv.Env) (st : CompatibilityEnv.EState)
    (c : String) :
    c ∈ CompatibilityEnv.missing_required env st ↔
      CompatibilityEnv.UncoveredRequired env st c := by
  unfold CompatibilityEnv.missing_required CompatibilityEnv.UncoveredRequired
  rw [List.mem_filter]
  constructor
  · rintro ⟨hreq, hcov⟩
    refine ⟨hreq, ?_⟩
    intro hcart
    have : CompatibilityEnv.covered env st c = true :=
      (covered_iff env st c).mpr ⟨required_subset_tracked env.meal_type c hreq, hcart⟩
    simp [this] at hcov
  · rintro ⟨hreq, hcart⟩
    refine ⟨hreq, ?_⟩
    have : CompatibilityEnv.covered env st c = false := by
      rw [Bool.eq_false_iff]
      intro hc
      exact hcart ((covered_iff env st c).mp hc).2
    simp [this]

theorem covers_missing_iff (env : CompatibilityEnv.Env) (st : CompatibilityEnv.EState)
    (i : ℕ) :
    CompatibilityEnv.covers_missing env st i = true ↔
      CompatibilityEnv.ProductCoversGap env st i := by
  unfold CompatibilityEnv.covers_missing CompatibilityEnv.ProductCoversGap
  simp only [List.any_eq_true]
  constructor
  · rintro ⟨c, hc, hm⟩
    have hm2 : c ∈ CompatibilityEnv.missing_required env st := by simpa using hm
    exact ⟨c, hc, (mem_missing_required env st c).mp hm2⟩
  · rintro ⟨c, hc, hm⟩
    have hm2 := (mem_missing_required env st c).mpr hm
    exact ⟨c, hc, by simpa using hm2⟩

theorem mask_step12_iff (env : CompatibilityEnv.Env) (st : CompatibilityEnv.EState)
    (i : ℕ) :
    CompatibilityEnv.mask_step12 env st i = true ↔
      i ∉ st.cart_indices ∧
      ¬ (env.budget * (13/10) < st.current_sum + (CompatibilityEnv.productAt env i).price_per_unit) := by
  simp [CompatibilityEnv.mask_step12]

theorem any_covering_iff (env : CompatibilityEnv.Env) (st : CompatibilityEnv.EState) :
    CompatibilityEnv.any_covering env st = true ↔
      CompatibilityEnv.SomeCoveringRemains env st := by
  unfold CompatibilityEnv.any_covering CompatibilityEnv.SomeCoveringRemains
  simp only [List.any_eq_true, List.mem_range, Bool.and_eq_true]
  constructor
  · rintro ⟨j, hj, h12, hcov⟩
    exact ⟨j, hj, (mask_step12_iff env st j).mp h12, (covers_missing_iff env st j).mp hcov⟩
  · rintro ⟨j, hj, h12, hcov⟩
    exact ⟨j, hj, (mask_step12_iff env st j).mpr h12, (covers_missing_iff env st j).mpr hcov⟩

theorem prioritize_iff (env : CompatibilityEnv.Env) (st : CompatibilityEnv.EState) :
    CompatibilityEnv.prioritize env st = true ↔
      (∃ c, CompatibilityEnv.UncoveredRequired env st c) ∧
      st.cart_indices.length <
        (CompatibilityEnv.MEAL_REQUIREMENTS env.meal_type).max_items - 2 := by
  unfold CompatibilityEnv.prioritize
  simp only [Bool.and_eq_true, Bool.not_eq_true', decide_eq_true_eq,
    List.isEmpty_eq_false_iff_exists_mem]
  constructor
  · rintro ⟨⟨c, hc⟩, hlen⟩
    exact ⟨⟨c, (mem_missing_required env st c).mp hc⟩, hlen⟩
  · rintro ⟨⟨c, hc⟩, hlen⟩
    exact ⟨⟨c, (mem_missing_required env st c).mpr hc⟩, hlen⟩

/-- Claim C5: `pick(i)` is masked exactly when the product is already chosen, or
would push the running cost above `budget × 1.3`, or a required role is still
uncovered, the cart has headroom, product `i` closes no gap and some other
eligible product does (the focusing rule is relaxed when no eligible product
covers a gap); `skip` is always legal. -/
theorem action_masks_illegal_iff (env : CompatibilityEnv.Env)
    (st : CompatibilityEnv.EState) (i : ℕ) (hi : i < env.products.length) :
    (CompatibilityEnv.action_masks_pick env st i = false ↔
      i ∈ st.cart_indices ∨
      env.budget * (13/10) <
        st.current_sum + (CompatibilityEnv.productAt env i).price_per_unit ∨
      ((∃ c, CompatibilityEnv.UncoveredRequired env st c) ∧
        st.cart_indices.length <
          (CompatibilityEnv.MEAL_REQUIREMENTS env.meal_type).max_items - 2 ∧
        ¬ CompatibilityEnv.ProductCoversGap env st i ∧
        CompatibilityEnv.SomeCoveringRemains env st)) ∧
    CompatibilityEnv.action_masks_skip env st = true := by
  refine ⟨?_, rfl⟩
  unfold CompatibilityEnv.action_masks_pick
  by_cases hpa : CompatibilityEnv.prioritize env st && CompatibilityEnv.any_covering env st
  · rw [if_pos hpa]
    rcases (Bool.and_eq_true _ _).mp hpa with ⟨hp, ha⟩
    obtain ⟨hmiss, hlen⟩ := (prioritize_iff env st).mp hp
    have hrem := (any_covering_iff env st).mp ha
    constructor
    · intro hfalse
      rcases Bool.and_eq_false_iff.mp hfalse with h12 | hcov
      · have := (mask_step12_iff env st i)
        rcases not_and_or.mp ((not_iff_not.mpr this).mp (by simp [h12])) with h | h
        · exact Or.inl (not_not.mp h)
        · exact Or.inr (Or.inl (not_not.mp h))
      · refine Or.inr (Or.inr ⟨hmiss, hlen, ?_, hrem⟩)
        intro hgap
        have := (covers_missing_iff env st i).mpr hgap
        simp [this] at hcov
    · intro hcases
      rcases hcases with hmem | hcap | ⟨_, _, hgap, _⟩
      · have : CompatibilityEnv.mask_step12 env st i = false := by
          rw [Bool.eq_false_iff]
          intro h12
          exact ((mask_step12_iff env st i).mp h12).1 hmem
        simp [this]
      · have : CompatibilityEnv.mask_step12 env st i = false := by
          rw [Bool.eq_false_iff]
          intro h12
          exact ((mask_step12_iff env st i).mp h12).2 hcap
        simp [this]
      · have : CompatibilityEnv.covers_missing env st i = false := by
          rw [Bool.eq_false_iff]
          intro hc
          exact hgap ((covers_missing_iff env st i).mp hc)
        simp [this]
  · rw [if_neg (by simpa using hpa)]
    have hside : ¬ ((∃ c, CompatibilityEnv.UncoveredRequired env st c) ∧
        st.cart_indices.length <
          (CompatibilityEnv.MEAL_REQUIREMENTS env.meal_type).max_items - 2 ∧
        ¬ CompatibilityEnv.ProductCoversGap env st i ∧
        CompatibilityEnv.SomeCoveringRemains env st) := by
      rintro ⟨hmiss, hlen, _, hrem⟩
      apply hpa
      rw [Bool.and_eq_true]
      exact ⟨(prioritize_iff env st).mpr ⟨hmiss, hlen⟩, (any_covering_iff env st).mpr hrem⟩
    rw [Bool.eq_false_iff]
    constructor
    · intro h12
      have := (not_iff_not.mpr (mask_step12_iff env st i)).mp h12
      rcases not_and_or.mp this with h | h
      · exact Or.inl (not_not.mp h)
      · exact Or.inr (Or.inl (not_not.mp h))
    · intro hcases h12
      obtain ⟨hnm, hnc⟩ := (mask_step12_iff env st i).mp h12
      rcases hcases with h | h | h
      · exact hnm h
      · exact hnc h
      · exact hside h

/-- Witness for C5 at a concrete environment and state. -/
theorem action_masks_illegal_iff_witness :
    0 < (CompatibilityEnv.sampleEnv).products.length ∧
    CompatibilityEnv.action_masks_skip CompatibilityEnv.sampleEnv
      CompatibilityEnv.reset = true :=
  ⟨by norm_num [CompatibilityEnv.sampleEnv],
    (action_masks_illegal_iff CompatibilityEnv.sampleEnv CompatibilityEnv.reset 0
      (by norm_num [CompatibilityEnv.sampleEnv])).2⟩

theorem step_preserves_nodup (env : CompatibilityEnv.Env)
    (st : CompatibilityEnv.EState) (a : ℕ) (h : st.cart_indices.Nodup) :
    (CompatibilityEnv.step env st a).cart_indices.Nodup := by
  unfold CompatibilityEnv.step
  split
  · exact h
  · split
    · rename_i hnc
      have hna : a ∉ st.cart_indices := by simpa using hnc
      simp [List.nodup_append, h, hna]
    · exact h

/-- Claim C10: after any action sequence from `reset` — legal or not — the cart
holds no duplicate index, and a pick of an already chosen product leaves the cart
and the running cost unchanged. -/
theorem cart_indices_nodup (env : CompatibilityEnv.Env) (actions : List ℕ) :
    (CompatibilityEnv.run_steps env actions).cart_indices.Nodup ∧
    (∀ (st : CompatibilityEnv.EState) (a : ℕ), a < env.products.length →
      a ∈ st.cart_indices →
      (CompatibilityEnv.step env st a).cart_indices = st.cart_indices ∧
      (CompatibilityEnv.step env st a).current_sum = st.current_sum) := by
  constructor
  · have main : ∀ (acts : List ℕ) (st : CompatibilityEnv.EState),
        st.cart_indices.Nodup → (acts.foldl (CompatibilityEnv.step env) st).cart_indices.Nodup := by
      intro acts
      induction acts with
      | nil => exact fun st h => h
      | cons a rest ih =>
          intro st h
          exact ih _ (step_preserves_nodup env st a h)
    exact main actions CompatibilityEnv.reset (by simp [CompatibilityEnv.reset])
  · intro st a hlt hmem
    unfold CompatibilityEnv.step
    rw [if_neg (by omega)]
    rw [if_neg (by simpa using hmem)]
    exact ⟨rfl, rfl⟩

/-- Witness for C10: a duplicate pick in a concrete environment is a no-op on
cart and cost. -/
theorem cart_indices_nodup_witness :
    (0 < CompatibilityEnv.sampleEnv.products.length ∧
      0 ∈ (CompatibilityEnv.EState.mk [0] 100 1).cart_indices) ∧
    (CompatibilityEnv.step CompatibilityEnv.sampleEnv
        (CompatibilityEnv.EState.mk [0] 100 1) 0).cart_indices =
      (CompatibilityEnv.EState.mk [0] 100 1).cart_indices :=
  ⟨⟨by norm_num [CompatibilityEnv.sampleEnv], by simp⟩,
    ((cart_indices_nodup CompatibilityEnv.sampleEnv []).2
      (CompatibilityEnv.EState.mk [0] 100 1) 0
      (by norm_num [CompatibilityEnv.sampleEnv]) (by simp)).1⟩

/-- Witness for the amended C4 at a concrete over-budget input. -/
theorem generate_basket_success_iff_witness :
    ((some (1:ℚ)) = some 1 ∧ (1:ℚ) ≠ 0 ∧
      (1:ℚ) < CompatibilityAgent.sumTotalPrices [⟨"x", [], none, 5⟩]) ∧
    AgentWarning.budgetExceeded
        (CompatibilityAgent.sumTotalPrices [⟨"x", [], none, 5⟩]) 1 ∈
      (CompatibilityAgent.finalize_basket ⟨[], []⟩ (fun _ _ => 0)
        [⟨"x", [], none, 5⟩] (some 1) []).errors := by
  have h1 : (1:ℚ) < CompatibilityAgent.sumTotalPrices [⟨"x", [], none, 5⟩] := by
    norm_num [CompatibilityAgent.sumTotalPrices]
  exact ⟨⟨rfl, by norm_num, h1⟩,
    (generate_basket_success_iff ⟨[], []⟩ (fun _ _ => 0) [⟨"x", [], none, 5⟩]
      (some 1) []).2.2 1 rfl (by norm_num) h1⟩

theorem smart_scale_eq_tenth_rule (q : ℚ) (p : ℕ) :
    SmartScenarioMatcher.scale_quantity q p = claimTierScaleTenth (q * p) := by
  unfold SmartScenarioMatcher.scale_quantity claimTierScaleTenth
  split_ifs <;> rfl

theorem basic_scale_eq_int_rule (q : ℚ) (p sb : ℕ) :
    BasicScenarioMatcher.scale_quantity q ((p : ℚ) / (sb : ℚ)) =
      claimTierScale (q * p / sb) := by
  unfold BasicScenarioMatcher.scale_quantity claimTierScale
  rw [← mul_div_assoc]
  split_ifs <;> rfl

/-- Counterexample to claim C6 as stated: the smart matcher rounds the small
value `1.24 × 1` to one decimal (1.2), not to integer units (1); the basic
matcher scales `100` for 3 people and `serves_base = 2` to `150`, not
`100 × 3 = 300`. -/
theorem scale_scenario_tier_counterexample :
    ((SmartScenarioMatcher.scale_scenario
        ⟨"s", "n", "lunch", 10, 1, [⟨"i", "i", "г", 31/25, true, "main_course"⟩]⟩
        1).components.map (fun c => c.quantity_scaled) = [6/5]) ∧
    claimTierScale ((31:ℚ)/25 * 1) = 1 ∧ ((6:ℚ)/5 ≠ 1) ∧
    ((BasicScenarioMatcher.scale_scenario
        ⟨"s", "n", "lunch", 10, 2, [⟨"i", "i", "г", 100, true, "main_course"⟩]⟩
        3).components.map (fun c => c.quantity_scaled) = [150]) ∧
    claimTierScale ((100:ℚ) * 3) = 300 ∧ ((150:ℚ) ≠ 300) := by
  refine ⟨?_, ?_, by norm_num, ?_, ?_, by norm_num⟩
  · simp only [SmartScenarioMatcher.scale_scenario, List.map_map, List.map_cons,
      List.map_nil, Function.comp]
    norm_num [SmartScenarioMatcher.scale_quantity, pyRoundTo, pyRound]
  · norm_num [claimTierScale, pyRound]
  · simp only [BasicScenarioMatcher.scale_scenario, List.map_map, List.map_cons,
      List.map_nil, Function.comp]
    norm_num [BasicScenarioMatcher.scale_quantity, pyRound]
  · norm_num [claimTierScale, pyRound]

/-- Claim C6 (amended): the smart matcher sets each slot's `quantity_scaled` to
`quantityPerPerson × people` rounded by magnitude tier with values below 10
rounded to one decimal place; the basic matcher sets it to
`quantityPerPerson × people ÷ servesBase` rounded by the tier rule with integer
rounding below 10; both use the nearest 5 below 100 and the nearest 10 above,
with a floor of 1. -/
theorem scale_scenario_rounding_rule (sc : Scenario) (people : ℕ) :
    ((SmartScenarioMatcher.scale_scenario sc people).components.map
        (fun c => c.quantity_scaled) =
      sc.components.map
        (fun c => claimTierScaleTenth (c.quantity_per_person * people))) ∧
    ((BasicScenarioMatcher.scale_scenario sc people).components.map
        (fun c => c.quantity_scaled) =
      sc.components.map
        (fun c => claimTierScale (c.quantity_per_person * people / sc.serves_base))) := by
  constructor
  · simp only [SmartScenarioMatcher.scale_scenario, List.map_map, Function.comp]
    exact List.map_congr_left (fun c _ => smart_scale_eq_tenth_rule c.quantity_per_person people)
  · simp only [BasicScenarioMatcher.scale_scenario, List.map_map, Function.comp]
    exact List.map_congr_left
      (fun c _ => basic_scale_eq_int_rule c.quantity_per_person people sc.serves_base)

/-- Claim C7: every scaled slot quantity is at least 1, in both matchers. -/
theorem quantity_scaled_ge_one (sc : Scenario) (people : ℕ) (hp : 1 ≤ people) :
    (∀ c ∈ (SmartScenarioMatcher.scale_scenario sc people).components,
      1 ≤ c.quantity_scaled) ∧
    (∀ c ∈ (BasicScenarioMatcher.scale_scenario sc people).components,
      1 ≤ c.quantity_scaled) := by
  constructor
  · intro c hc
    simp only [SmartScenarioMatcher.scale_scenario, List.mem_map] at hc
    obtain ⟨c0, _, hc0⟩ := hc
    rw [← hc0]
    exact le_max_right _ 1
  · intro c hc
    simp only [BasicScenarioMatcher.scale_scenario, List.mem_map] at hc
    obtain ⟨c0, _, hc0⟩ := hc
    rw [← hc0]
    exact le_max_right _ 1

/-- Witness for C7 at a concrete scenario. -/
theorem quantity_scaled_ge_one_witness :
    1 ≤ 2 ∧
    (∀ c ∈ (SmartScenarioMatcher.scale_scenario
      ⟨"s", "n", "lunch", 10, 1, [⟨"i", "i", "г", 250, true, "main_course"⟩]⟩
      2).components, 1 ≤ c.quantity_scaled) :=
  ⟨by norm_num,
    (quantity_scaled_ge_one
      ⟨"s", "n", "lunch", 10, 1, [⟨"i", "i", "г", 250, true, "main_course"⟩]⟩
      2 (by norm_num)).1⟩

/-- Claim C8 evidence (code bug): with a single surviving template,
`randint(0, min(5, 1))` may return 1, and `scored_scenarios[1]` is out of range
(an IndexError), so the tie-break index does not always land on an existing
candidate. -/
theorem smart_tiebreak_index_error :
    1 ∈ SmartScenarioMatcher.smart_tiebreak_indices 1 ∧
    SmartScenarioMatcher.smart_select
      [((⟨"s", "n", "lunch", 10, 1, []⟩ : Scenario), (1:ℚ))] 1 = none := by
  constructor
  · simp [SmartScenarioMatcher.smart_tiebreak_indices,
      SmartScenarioMatcher.smart_tiebreak_bound]
  · rfl

/-- Counterexample to claim C9 as stated: for a 250 g slot and a 1 кг package
the stored `quantity_needed` is the whole-package count 1, not the 0.25 claimed
(the quantity expressed in the product's unit is never stored). -/
theorem search_quantity_counterexample :
    (ProductSearcher.unit_calc 250 1 "кг" 1 100).quantity_needed = 1 ∧
    ((ProductSearcher.unit_calc 250 1 "кг" 1 100).quantity_needed : ℚ) ≠ 1/4 := by
  have hp : ProductSearcher.package_size_grams "кг" 1 = 1000 := by
    norm_num [ProductSearcher.package_size_grams]
  have h1 : (ProductSearcher.unit_calc 250 1 "кг" 1 100).quantity_needed = 1 := by
    unfold ProductSearcher.unit_calc
    rw [hp]
    norm_num [Int.ceil_eq_iff]
  refine ⟨h1, ?_⟩
  rw [h1]
  norm_num

/-- Claim C9 (amended): the 250 g slot filled by a 1 кг package yields
`packagesToBuy = quantity_needed = 1` (one whole package, also the value of the
`quantity_needed` field), the charged `total_price` is one package's price, and
the 0.25 kg actually needed surfaces only as
`fractional_cost = 0.25 × pricePerUnit`. -/
theorem unit_calc_250g_kg (price : ℚ) :
    (ProductSearcher.unit_calc 250 1 "кг" 1 price).quantity_needed = 1 ∧
    (ProductSearcher.unit_calc 250 1 "кг" 1 price).total_price = pyRoundTo 2 price ∧
    (ProductSearcher.unit_calc 250 1 "кг" 1 price).fractional_cost =
      pyRoundTo 2 (price / 4) := by
  have hp : ProductSearcher.package_size_grams "кг" 1 = 1000 := by
    norm_num [ProductSearcher.package_size_grams]
  have hceil : ⌈(250:ℚ) * (1:ℕ) / 1000⌉ = 1 := by norm_num [Int.ceil_eq_iff]
  unfold ProductSearcher.unit_calc
  rw [hp]
  refine ⟨hceil, ?_, ?_⟩
  · rw [hceil]
    norm_num
  · have harg : (250:ℚ) * (1:ℕ) / 1000 * price = price / 4 := by
      push_cast
      ring
    rw [harg]
